import Mathlib

/-!
Shallow embedding of `src/app.py` (k8s-deploy-v1), a templating wrapper that
reads a YAML values file, overlays matching process environment variables,
renders four fixed Jinja2 templates, re-parses and re-serializes each rendered
text as YAML, and writes the results to an output directory.

External collaborators (the filesystem, `yaml.safe_load` / `yaml.dump`, the
Jinja2 engine, `os.environ`, `os.system`) are modelled as explicit parameters:
deterministic Lean functions, exactly as the Python code treats them.  Python
exceptions are modelled with `Except`; an uncaught exception is an `error`
result propagated unchanged, matching the `log and re-raise` blocks in the
source.
-/

/-- A Python value as produced by `yaml.safe_load`: `None`, strings, integers,
booleans, lists, and string-keyed dictionaries (association lists that keep
insertion order, as Python 3.7+ dicts do). -/
inductive PyVal where
  | null : PyVal
  | str : String → PyVal
  | int : Int → PyVal
  | bool : Bool → PyVal
  | list : List PyVal → PyVal
  | dict : List (String × PyVal) → PyVal
deriving BEq, Repr

/-- Whether a Python value is a dictionary (a key-value mapping). -/
def PyVal.isDict : PyVal → Bool
  | .dict _ => true
  | _ => false

/-- First-match lookup in an association list with string keys; models both
Python dictionary indexing and reading a file from a directory. -/
def findVal {α : Type} (k : String) : List (String × α) → Option α
  | [] => none
  | (k1, v) :: rest => if k1 = k then some v else findVal k rest

/-- In-place update of an association list: replaces the value at the first
occurrence of the key, keeping the original key position (as Python dict
assignment does), and appends when the key is absent (as writing a fresh file
does). -/
def setVal {α : Type} (k : String) (v : α) : List (String × α) → List (String × α)
  | [] => [(k, v)]
  | (k1, v1) :: rest => if k1 = k then (k1, v) :: rest else (k1, v1) :: setVal k v rest

/-- Python substring containment, `needle in hay` for strings. -/
def strContains (hay needle : String) : Bool :=
  needle == "" || (hay.splitOn needle).length > 1

/-- The errors (Python exceptions) that can arise in this program.  Each
constructor stands for the exception class the source raises or re-raises:
`fileNotFound` for `FileNotFoundError` from `open`, `yamlError` for a
`yaml.YAMLError` from `safe_load`, `templateNotFound` / `renderError` for
Jinja2 failures, `typeError` for a `TypeError` raised by `in` / item
assignment on a non-dict, `writeError` for an `OSError` opening an output
file, `applyError` for a failure launching `os.system`. -/
inductive Err where
  | fileNotFound : Err
  | yamlError : Err
  | templateNotFound : Err
  | renderError : Err
  | typeError : Err
  | writeError : Err
  | applyError : Err
deriving DecidableEq, Repr

/-- The filesystem as seen by the program: a mapping from path to file
content.  A missing path means the file does not exist. -/
abbrev FS : Type := List (String × String)

/-- Python equality `k == x` between a string `k` and an arbitrary value `x`:
true exactly when `x` is an equal string (a string never equals an int, bool,
None, list or dict in Python). -/
def pyEqStr (x : PyVal) (k : String) : Bool :=
  match x with
  | .str s => s == k
  | _ => false

/-- Python `key in context` (line 29 of the source): membership test on an
arbitrary value.  Well-defined (returns a `Bool`) on strings (substring),
lists (element equality) and dicts (key lookup); raises `TypeError` on
`None`, integers and booleans, as Python does. -/
def pyContains : PyVal → String → Except Err Bool
  | .null, _ => .error .typeError
  | .int _, _ => .error .typeError
  | .bool _, _ => .error .typeError
  | .str s, k => .ok (strContains s k)
  | .list xs, k => .ok (xs.any (fun x => pyEqStr x k))
  | .dict kvs, k => .ok (kvs.any (fun e => e.1 == k))

/-- Python `context[key] = value` (line 30 of the source): item assignment.
Only dicts support assignment with a string key; every other value raises
`TypeError`. -/
def pySetItem : PyVal → String → PyVal → Except Err PyVal
  | .dict kvs, k, v => .ok (.dict (setVal k v kvs))
  | _, _, _ => .error .typeError

/-- The environment-override loop of `EnvReader.read` (lines 28-30):
`for key, value in os.environ.items(): if key in context: context[key] = value`.
Keys already in the parsed document are overwritten with the environment
string; a `TypeError` from the membership test or the assignment propagates
(the loop is outside the `try` block). -/
def envOverride : PyVal → List (String × String) → Except Err PyVal
  | ctx, [] => .ok ctx
  | ctx, (k, v) :: rest =>
    match pyContains ctx k with
    | .error e => .error e
    | .ok b =>
      match (if b then pySetItem ctx k (.str v) else .ok ctx) with
      | .error e => .error e
      | .ok ctx1 => envOverride ctx1 rest

/-- The configuration reader: holds the path of the values file. -/
structure EnvReader where
  env_file : String

/-- `EnvReader.read` (lines 15-32): opens the values file (raising
`FileNotFoundError` if absent), parses it with `yaml.safe_load` (re-raising
any parse error unchanged), then runs the environment-override loop.
`safeLoad` is the external YAML parser collaborator; `environ` is
`os.environ.items()` in iteration order. -/
def EnvReader.read (r : EnvReader) (fs : FS) (safeLoad : String → Except Err PyVal)
    (environ : List (String × String)) : Except Err PyVal :=
  match findVal r.env_file fs with
  | none => .error .fileNotFound
  | some s =>
    match safeLoad s with
    | .error e => .error e
    | .ok ctx => envOverride ctx environ

/-- The template renderer (lines 35-49): holds the template directory and the
Jinja2 `Environment` built from it in the constructor.  The engine is an
external collaborator: a function from template name and context to rendered
text or a Jinja2 error (`TemplateNotFound`, syntax error, ...). -/
structure TemplateRenderer where
  template_dir : String
  env : String → PyVal → Except Err String

/-- `TemplateRenderer.render` (lines 42-49): looks the template up in the
environment and renders it with the context; any engine exception is logged
and re-raised unchanged.  The method reads but never mutates the renderer, so
the (unchanged) renderer state is returned alongside the result. -/
def TemplateRenderer.render (tr : TemplateRenderer) (templateName : String)
    (ctx : PyVal) : (Except Err String) × TemplateRenderer :=
  (tr.env templateName ctx, tr)

/-- The external collaborators of `KubernetesManifestGenerator`: the template
renderer, `yaml.safe_load`, `yaml.dump` (with `default_flow_style=False`), and
whether opening a given path for writing raises an `OSError`. -/
structure Collab where
  renderer : TemplateRenderer
  safeLoad : String → Except Err PyVal
  dump : PyVal → String
  openFail : String → Bool

/-- `KubernetesManifestGenerator.write_yaml` (lines 80-87):
`with open(file_path, 'w') as file: yaml.dump(yaml.safe_load(data), file, ...)`.
Opening with mode `w` truncates/creates the file first; then the rendered text
is re-parsed; if the parse fails the exception is re-raised (leaving the
truncated file behind), otherwise the canonical dump of the parsed value is
written.  Returns the updated filesystem and the error, if any. -/
def KubernetesManifestGenerator.write_yaml (c : Collab) (fs : FS)
    (filePath data : String) : FS × Option Err :=
  if c.openFail filePath then (fs, some .writeError)
  else
    match c.safeLoad data with
    | .error e => (setVal filePath "" fs, some e)
    | .ok v => (setVal filePath (c.dump v) fs, none)

/-- `os.path.join(output_dir, file_name)` (line 73) for a relative file name
and a directory without a trailing separator. -/
def outPath (outDir fileName : String) : String :=
  outDir ++ "/" ++ fileName

/-- The hardcoded binding table of `generate_yaml_files` (lines 63-68), in
Python dict insertion order: output filename paired with template name. -/
def templates : List (String × String) :=
  [("service.yaml", "service.yaml.j2"),
   ("ingress.yaml", "ingress.yaml.j2"),
   ("deploy.yaml", "deploy.yaml.j2"),
   ("hpa.yaml", "hpa.yaml.j2")]

/-- Result of a (partial) run of the generator: the filesystem after all
writes performed, the templates for which rendering was attempted (in order),
and the first error, if any. -/
structure GenResult where
  fs : FS
  rendered : List String
  err : Option Err
deriving Repr

/-- The loop body of `generate_yaml_files` (lines 70-78) over a binding list:
for each `(file_name, template_name)` pair, render the template with the
context, then `write_yaml` to `<output_dir>/<file_name>`; any exception is
logged and re-raised, aborting the remaining bindings. -/
def genAux (c : Collab) (ctx : PyVal) (outDir : String) :
    List (String × String) → FS → List String → GenResult
  | [], fs, tr => ⟨fs, tr, none⟩
  | (fileName, templateName) :: rest, fs, tr =>
    match (c.renderer.render templateName ctx).1 with
    | .error e => ⟨fs, tr ++ [templateName], some e⟩
    | .ok rendered =>
      match KubernetesManifestGenerator.write_yaml c fs
          (outPath outDir fileName) rendered with
      | (fs1, some e) => ⟨fs1, tr ++ [templateName], some e⟩
      | (fs1, none) => genAux c ctx outDir rest fs1 (tr ++ [templateName])

/-- `KubernetesManifestGenerator.generate_yaml_files` (lines 61-78): runs the
loop over the fixed binding table. -/
def KubernetesManifestGenerator.generate_yaml_files (c : Collab) (ctx : PyVal)
    (outDir : String) (fs : FS) : GenResult :=
  genAux c ctx outDir templates fs []

/-- `KubernetesManifestGenerator.apply_kubernetes_manifests` (lines 89-96):
`os.system(f"kubectl apply -f {self.output_dir}/")` inside a try/except that
only catches exceptions from the invocation itself.  `system` is the external
collaborator: it returns the command's exit status, or an error when the
command could not be launched at all.  The returned exit status is discarded
by the source — only an invocation exception makes the method fail. -/
def KubernetesManifestGenerator.apply_kubernetes_manifests
    (system : String → Except Err Int) (outDir : String) : Except Err Unit :=
  match system ("kubectl apply -f " ++ outDir ++ "/") with
  | .error e => .error e
  | .ok _ => .ok ()

/-- The orchestrator (lines 99-122): the values-file path and output
directory it was constructed with (the template directory lives inside
`Collab.renderer`). -/
structure App where
  env_file : String
  output_dir : String

/-- Result of `App.run`: the filesystem after the run, the templates whose
rendering was attempted, the external commands issued, and the propagated
error, if any. -/
structure AppResult where
  fs : FS
  rendered : List String
  applied : List String
  err : Option Err
deriving Repr

/-- `App.run` (lines 105-122): read the context via `EnvReader.read`, then
generate the YAML files.  The call to `apply_kubernetes_manifests` is
commented out in the source (line 117), so no external command is ever
issued.  Any exception from a component is logged and re-raised unchanged. -/
def App.run (a : App) (c : Collab) (environ : List (String × String))
    (fs : FS) : AppResult :=
  match EnvReader.read ⟨a.env_file⟩ fs c.safeLoad environ with
  | .error e => ⟨fs, [], [], some e⟩
  | .ok ctx =>
    match KubernetesManifestGenerator.generate_yaml_files c ctx a.output_dir fs with
    | ⟨fs1, tr, err⟩ => ⟨fs1, tr, [], err⟩

/-! ### Association-list lemmas -/

theorem findVal_setVal {α : Type} (p q : String) (d : α) (fs : List (String × α)) :
    findVal p (setVal q d fs) = if q = p then some d else findVal p fs := by
  induction fs with
  | nil => simp [findVal, setVal]
  | cons hd tl ih =>
    obtain ⟨k1, v1⟩ := hd
    by_cases h1 : k1 = q
    · subst h1
      simp only [setVal, if_pos rfl, findVal]
      by_cases h2 : k1 = p <;> simp [h2, findVal]
    · simp only [setVal, if_neg h1, findVal]
      by_cases h2 : k1 = p
      · subst h2
        have hqp : ¬ (q = k1) := fun h => h1 h.symm
        simp [hqp]
      · simp [h2, ih]

theorem setVal_keys_of_mem {α : Type} (k : String) (v : α) (l : List (String × α))
    (h : k ∈ l.map Prod.fst) :
    (setVal k v l).map Prod.fst = l.map Prod.fst := by
  induction l with
  | nil => simp at h
  | cons hd tl ih =>
    obtain ⟨k1, v1⟩ := hd
    by_cases h1 : k1 = k
    · simp [setVal, h1]
    · have h2 : k ∈ tl.map Prod.fst := by
        rcases List.mem_cons.mp h with h3 | h3
        · exact absurd h3.symm h1
        · exact h3
      simp [setVal, h1, ih h2]

theorem findVal_eq_none {α : Type} (k : String) (l : List (String × α)) :
    findVal k l = none ↔ k ∉ l.map Prod.fst := by
  induction l with
  | nil => simp [findVal]
  | cons hd tl ih =>
    obtain ⟨k1, v1⟩ := hd
    by_cases h1 : k1 = k
    · simp [findVal, h1]
    · have h2 : ¬ (k = k1) := fun h => h1 h.symm
      simp [findVal, h1, ih, h2]

theorem any_fst_beq_iff {α : Type} (k : String) (l : List (String × α)) :
    (l.any fun e => e.1 == k) = true ↔ k ∈ l.map Prod.fst := by
  induction l with
  | nil => simp
  | cons hd tl ih =>
    simp only [List.any_cons, List.map_cons, List.mem_cons, Bool.or_eq_true, ih,
      beq_iff_eq]
    constructor
    · rintro (h | h)
      · exact Or.inl h.symm
      · exact Or.inr h
    · rintro (h | h)
      · exact Or.inl h.symm
      · exact Or.inr h

@[simp]
theorem findVal_nil {α : Type} (k : String) : findVal k ([] : List (String × α)) = none := rfl

@[simp]
theorem findVal_cons {α : Type} (k k1 : String) (v : α) (l : List (String × α)) :
    findVal k ((k1, v) :: l) = if k1 = k then some v else findVal k l := rfl

/-! ### The environment-override merge (`EnvReader.read`, lines 28-30) -/

/-- Core merge lemma: running the override loop on a parsed dictionary `D`
always succeeds, preserves the key list of `D`, replaces the value of every
key that also occurs in the (duplicate-free) environment by the environment
string, and leaves every other key's value untouched. -/
theorem envOverride_dict (environ : List (String × String)) :
    ∀ D : List (String × PyVal), (environ.map Prod.fst).Nodup →
    ∃ D1, envOverride (.dict D) environ = .ok (.dict D1) ∧
      D1.map Prod.fst = D.map Prod.fst ∧
      (∀ k v, findVal k environ = some v → k ∈ D.map Prod.fst →
        findVal k D1 = some (.str v)) ∧
      (∀ k, k ∉ environ.map Prod.fst → findVal k D1 = findVal k D) := by
  induction environ with
  | nil =>
    intro D _
    refine ⟨D, rfl, rfl, ?_, fun k _ => rfl⟩
    intro k v h
    simp at h
  | cons hd tl ih =>
    intro D hND
    obtain ⟨k0, v0⟩ := hd
    simp only [List.map_cons, List.nodup_cons] at hND
    obtain ⟨hk0, htl⟩ := hND
    by_cases hmem : k0 ∈ D.map Prod.fst
    · have hany : (D.any fun e => e.1 == k0) = true := (any_fst_beq_iff k0 D).mpr hmem
      obtain ⟨D1, hrun, hkeys, hboth, honly⟩ := ih (setVal k0 (.str v0) D) htl
      refine ⟨D1, ?_, ?_, ?_, ?_⟩
      · simp only [envOverride, pyContains, hany, if_pos, pySetItem]
        exact hrun
      · rw [hkeys, setVal_keys_of_mem k0 _ D hmem]
      · intro k v hfind hkD
        by_cases hk : k = k0
        · subst hk
          rw [findVal_cons, if_pos rfl] at hfind
          obtain rfl := Option.some.inj hfind
          rw [honly k hk0, findVal_setVal]
          simp
        · have hne : ¬ (k0 = k) := fun h => hk h.symm
          simp only [findVal_cons, if_neg hne] at hfind
          have hkD1 : k ∈ (setVal k0 (PyVal.str v0) D).map Prod.fst := by
            rw [setVal_keys_of_mem k0 _ D hmem]
            exact hkD
          exact hboth k v hfind hkD1
      · intro k hk
        simp only [List.map_cons, List.mem_cons, not_or] at hk
        rw [honly k hk.2, findVal_setVal, if_neg (fun h => hk.1 h.symm)]
    · have hany : (D.any fun e => e.1 == k0) = false := by
        rw [Bool.eq_false_iff]
        intro hc
        exact hmem ((any_fst_beq_iff k0 D).mp hc)
      obtain ⟨D1, hrun, hkeys, hboth, honly⟩ := ih D htl
      refine ⟨D1, ?_, hkeys, ?_, ?_⟩
      · simp only [envOverride, pyContains, hany, if_neg]
        exact hrun
      · intro k v hfind hkD
        by_cases hk : k = k0
        · subst hk
          exact absurd hkD hmem
        · have hne : ¬ (k0 = k) := fun h => hk h.symm
          simp only [findVal_cons, if_neg hne] at hfind
          exact hboth k v hfind hkD
      · intro k hk
        simp only [List.map_cons, List.mem_cons, not_or] at hk
        exact honly k hk.2

/-- C1: for every configuration document `D` (a parsed dictionary) and
environment mapping `environ`, the context returned by `EnvReader.read`
contains exactly the keys of `D`; every key present in both `D` and the
environment maps to the environment's string value; every key only in `D`
keeps its document value unchanged; and no key outside `D` (in particular no
key only in the environment) appears in the result. -/
theorem envReader_read_merges_env (r : EnvReader) (fs : FS)
    (safeLoad : String → Except Err PyVal) (environ : List (String × String))
    (s : String) (D : List (String × PyVal))
    (hfile : findVal r.env_file fs = some s)
    (hparse : safeLoad s = .ok (.dict D))
    (hE : (environ.map Prod.fst).Nodup) :
    ∃ D1, EnvReader.read r fs safeLoad environ = .ok (.dict D1) ∧
      D1.map Prod.fst = D.map Prod.fst ∧
      (∀ k v, findVal k environ = some v → k ∈ D.map Prod.fst →
        findVal k D1 = some (.str v)) ∧
      (∀ k, k ∉ environ.map Prod.fst → findVal k D1 = findVal k D) ∧
      (∀ k, k ∉ D.map Prod.fst → findVal k D1 = none) := by
  obtain ⟨D1, hrun, hkeys, hboth, honly⟩ := envOverride_dict environ D hE
  refine ⟨D1, ?_, hkeys, hboth, honly, ?_⟩
  · simp only [EnvReader.read, hfile, hparse]
    exact hrun
  · intro k hk
    rw [findVal_eq_none, hkeys]
    exact hk

/-- The values file of the merge scenario from the spec:
`{replicaCount: 3, image: "app:v1"}`. -/
def dictW1 : List (String × PyVal) :=
  [("replicaCount", PyVal.int 3), ("image", PyVal.str "app:v1")]

/-- A YAML parser collaborator that parses the concrete scenario file. -/
def safeLoadW1 : String → Except Err PyVal := fun s =>
  if s = "cfg" then .ok (.dict dictW1) else .error .yamlError

/-- Witness for C1 at the spec's own scenario: values
`{replicaCount: 3, image: "app:v1"}` with environment `image=app:v2`. -/
theorem envReader_read_merges_env_witness :
    (findVal (EnvReader.env_file ⟨"values.yaml"⟩) [("values.yaml", "cfg")] = some "cfg" ∧
      safeLoadW1 "cfg" = .ok (.dict dictW1) ∧
      (([("image", "app:v2")] : List (String × String)).map Prod.fst).Nodup) ∧
    (∃ D1, EnvReader.read ⟨"values.yaml"⟩ [("values.yaml", "cfg")] safeLoadW1
        [("image", "app:v2")] = .ok (.dict D1) ∧
      D1.map Prod.fst = dictW1.map Prod.fst ∧
      (∀ k v, findVal k [("image", "app:v2")] = some v → k ∈ dictW1.map Prod.fst →
        findVal k D1 = some (.str v)) ∧
      (∀ k, k ∉ ([("image", "app:v2")] : List (String × String)).map Prod.fst →
        findVal k D1 = findVal k dictW1) ∧
      (∀ k, k ∉ dictW1.map Prod.fst → findVal k D1 = none)) :=
  ⟨⟨rfl, rfl, by simp⟩,
    envReader_read_merges_env ⟨"values.yaml"⟩ [("values.yaml", "cfg")] safeLoadW1
      [("image", "app:v2")] "cfg" dictW1 rfl rfl (by simp)⟩

/-! ### Generator lemmas -/

theorem string_append_cancel_left {p a b : String} (h : p ++ a = p ++ b) : a = b := by
  have h2 : p.data ++ a.data = p.data ++ b.data := by
    rw [← String.data_append, ← String.data_append, h]
  exact String.ext (List.append_cancel_left h2)

theorem outPath_inj (outDir : String) {a b : String} (h : a ≠ b) :
    outPath outDir a ≠ outPath outDir b := by
  intro hc
  exact h (string_append_cancel_left hc)

theorem setVal_append_of_not_mem {α : Type} (p : String) (d : α)
    (fs : List (String × α)) (h : p ∉ fs.map Prod.fst) :
    setVal p d fs = fs ++ [(p, d)] := by
  induction fs with
  | nil => rfl
  | cons hd tl ih =>
    obtain ⟨k1, v1⟩ := hd
    simp only [List.map_cons, List.mem_cons, not_or] at h
    have hne : ¬ (k1 = p) := fun hc => h.1 hc.symm
    simp only [setVal, if_neg hne, List.cons_append, List.cons.injEq, true_and]
    exact ih h.2

/-- Exhaustive description of the three outcomes of `write_yaml`: the open
fails and nothing changes; the re-parse fails and the file is left truncated;
or the canonical dump of the parsed value is written. -/
theorem write_yaml_cases (c : Collab) (fs : FS) (filePath data : String) :
    (c.openFail filePath = true ∧
      KubernetesManifestGenerator.write_yaml c fs filePath data = (fs, some .writeError)) ∨
    (c.openFail filePath = false ∧ ∃ e, c.safeLoad data = .error e ∧
      KubernetesManifestGenerator.write_yaml c fs filePath data
        = (setVal filePath "" fs, some e)) ∨
    (c.openFail filePath = false ∧ ∃ v, c.safeLoad data = .ok v ∧
      KubernetesManifestGenerator.write_yaml c fs filePath data
        = (setVal filePath (c.dump v) fs, none)) := by
  by_cases ho : c.openFail filePath
  · exact Or.inl ⟨ho, by simp [KubernetesManifestGenerator.write_yaml, ho]⟩
  · cases hs : c.safeLoad data with
    | error e =>
      refine Or.inr (Or.inl ⟨by simp [ho], e, rfl, ?_⟩)
      simp [KubernetesManifestGenerator.write_yaml, ho, hs]
    | ok v =>
      refine Or.inr (Or.inr ⟨by simp [ho], v, rfl, ?_⟩)
      simp [KubernetesManifestGenerator.write_yaml, ho, hs]

theorem genAux_nil (c : Collab) (ctx : PyVal) (outDir : String) (fs : FS)
    (tr : List String) : genAux c ctx outDir [] fs tr = ⟨fs, tr, none⟩ := rfl

theorem genAux_cons (c : Collab) (ctx : PyVal) (outDir : String)
    (fileName templateName : String) (rest : List (String × String)) (fs : FS)
    (tr : List String) :
    genAux c ctx outDir ((fileName, templateName) :: rest) fs tr =
      match (c.renderer.render templateName ctx).1 with
      | .error e => ⟨fs, tr ++ [templateName], some e⟩
      | .ok rendered =>
        match KubernetesManifestGenerator.write_yaml c fs
            (outPath outDir fileName) rendered with
        | (fs1, some e) => ⟨fs1, tr ++ [templateName], some e⟩
        | (fs1, none) => genAux c ctx outDir rest fs1 (tr ++ [templateName]) := rfl

/-- Frame property of the generator loop: a path that is not an output path
of any binding in the list is never touched. -/
theorem genAux_frame (c : Collab) (ctx : PyVal) (outDir : String) :
    ∀ (ts : List (String × String)) (fs : FS) (tr : List String) (p : String),
      (∀ fn ∈ ts.map Prod.fst, outPath outDir fn ≠ p) →
      findVal p (genAux c ctx outDir ts fs tr).fs = findVal p fs := by
  intro ts
  induction ts with
  | nil => intro fs tr p _; rfl
  | cons hd tl ih =>
    intro fs tr p hp
    obtain ⟨fileName, templateName⟩ := hd
    have hphead : outPath outDir fileName ≠ p := by
      refine hp fileName ?_
      simp
    have hptail : ∀ fn ∈ tl.map Prod.fst, outPath outDir fn ≠ p := by
      intro fn hfn
      refine hp fn ?_
      simp [hfn]
    cases hr : (c.renderer.render templateName ctx).1 with
    | error e => simp [genAux_cons, hr]
    | ok rendered =>
      rcases write_yaml_cases c fs (outPath outDir fileName) rendered with
        ⟨ho, hw⟩ | ⟨ho, e, hs, hw⟩ | ⟨ho, v, hs, hw⟩
      · simp [genAux_cons, hr, hw]
      · simp only [genAux_cons, hr, hw]
        rw [findVal_setVal, if_neg hphead]
      · simp only [genAux_cons, hr, hw]
        rw [ih _ _ p hptail, findVal_setVal, if_neg hphead]

/-- Fail-fast behaviour of the generator loop over any binding list with
distinct output filenames: when the loop fails, some prefix of `n ≥ 1`
bindings was attempted in iteration order (the failing binding being the
`n`-th), every binding before the failing one still has its output file on
disk with the canonically serialized content, and no later binding was
rendered, parsed or written. -/
theorem genAux_err (c : Collab) (ctx : PyVal) (outDir : String) :
    ∀ (ts : List (String × String)) (fs : FS) (tr : List String) (e : Err),
      (ts.map Prod.fst).Nodup →
      (genAux c ctx outDir ts fs tr).err = some e →
      ∃ n, 1 ≤ n ∧ n ≤ ts.length ∧
        (genAux c ctx outDir ts fs tr).rendered = tr ++ (ts.take n).map Prod.snd ∧
        ∀ fn ∈ (ts.take (n - 1)).map Prod.fst,
          ∃ v, findVal (outPath outDir fn) (genAux c ctx outDir ts fs tr).fs
            = some (c.dump v) := by
  intro ts
  induction ts with
  | nil =>
    intro fs tr e _ h
    simp [genAux_nil] at h
  | cons hd tl ih =>
    intro fs tr e hnd h
    obtain ⟨fileName, templateName⟩ := hd
    simp only [List.map_cons, List.nodup_cons] at hnd
    obtain ⟨hfn, htl⟩ := hnd
    cases hr : (c.renderer.render templateName ctx).1 with
    | error e1 =>
      refine ⟨1, le_refl 1, by simp, ?_, ?_⟩
      · simp [genAux_cons, hr]
      · simp
    | ok rendered =>
      rcases write_yaml_cases c fs (outPath outDir fileName) rendered with
        ⟨ho, hw⟩ | ⟨ho, e1, hs, hw⟩ | ⟨ho, v, hs, hw⟩
      · refine ⟨1, le_refl 1, by simp, ?_, ?_⟩
        · simp [genAux_cons, hr, hw]
        · simp
      · refine ⟨1, le_refl 1, by simp, ?_, ?_⟩
        · simp [genAux_cons, hr, hw]
        · simp
      · have hstep : genAux c ctx outDir ((fileName, templateName) :: tl) fs tr
            = genAux c ctx outDir tl (setVal (outPath outDir fileName) (c.dump v) fs)
              (tr ++ [templateName]) := by
          simp [genAux_cons, hr, hw]
        have h2 : (genAux c ctx outDir tl
            (setVal (outPath outDir fileName) (c.dump v) fs)
            (tr ++ [templateName])).err = some e := by
          rw [← hstep]
          exact h
        obtain ⟨n, hn1, hnle, hrend, hfiles⟩ := ih _ _ e htl h2
        obtain ⟨m, rfl⟩ : ∃ m, n = m + 1 := ⟨n - 1, (Nat.succ_pred_eq_of_pos hn1).symm⟩
        refine ⟨m + 2, by omega, by simp; omega, ?_, ?_⟩
        · rw [hstep, hrend]
          simp [List.take_succ_cons]
        · intro fn hmem
          rw [hstep]
          have hidx : m + 2 - 1 = m + 1 := rfl
          rw [hidx] at hmem
          simp only [List.take_succ_cons, List.map_cons, List.mem_cons] at hmem
          rcases hmem with rfl | hmem
          · refine ⟨v, ?_⟩
            have hframe : ∀ fn1 ∈ tl.map Prod.fst,
                outPath outDir fn1 ≠ outPath outDir fn := by
              intro fn1 hfn1
              exact outPath_inj outDir (fun hc => hfn (hc ▸ hfn1))
            rw [genAux_frame c ctx outDir tl _ _ _ hframe, findVal_setVal, if_pos rfl]
          · exact hfiles fn (by simpa using hmem)

/-- Success path of the generator loop: when no binding fails, every binding
was rendered in iteration order and the final filesystem is the initial one
with one write per binding, each write being the canonical dump of some
successfully parsed value. -/
theorem genAux_ok (c : Collab) (ctx : PyVal) (outDir : String) :
    ∀ (ts : List (String × String)) (fs : FS) (tr : List String),
      (genAux c ctx outDir ts fs tr).err = none →
      (genAux c ctx outDir ts fs tr).rendered = tr ++ ts.map Prod.snd ∧
      ∃ ws : List (String × String),
        ws.map Prod.fst = ts.map Prod.fst ∧
        (∀ w ∈ ws, ∃ v, w.2 = c.dump v) ∧
        (genAux c ctx outDir ts fs tr).fs
          = ws.foldl (fun a w => setVal (outPath outDir w.1) w.2 a) fs := by
  intro ts
  induction ts with
  | nil =>
    intro fs tr _
    refine ⟨by simp [genAux_nil], [], by simp, by simp, by simp [genAux_nil]⟩
  | cons hd tl ih =>
    intro fs tr h
    obtain ⟨fileName, templateName⟩ := hd
    cases hr : (c.renderer.render templateName ctx).1 with
    | error e => simp [genAux_cons, hr] at h
    | ok rendered =>
      rcases write_yaml_cases c fs (outPath outDir fileName) rendered with
        ⟨ho, hw⟩ | ⟨ho, e, hs, hw⟩ | ⟨ho, v, hs, hw⟩
      · simp [genAux_cons, hr, hw] at h
      · simp [genAux_cons, hr, hw] at h
      · have hstep : genAux c ctx outDir ((fileName, templateName) :: tl) fs tr
            = genAux c ctx outDir tl (setVal (outPath outDir fileName) (c.dump v) fs)
              (tr ++ [templateName]) := by
          simp [genAux_cons, hr, hw]
        rw [hstep] at h ⊢
        obtain ⟨hrend, ws, hws1, hws2, hwsfs⟩ := ih _ _ h
        refine ⟨by simp [hrend], (fileName, c.dump v) :: ws, by simp [hws1], ?_, ?_⟩
        · intro w hwmem
          rcases List.mem_cons.mp hwmem with rfl | hwmem
          · exact ⟨v, rfl⟩
          · exact hws2 w hwmem
        · simpa using hwsfs

/-- Folding fresh, pairwise-distinct writes over a filesystem appends them in
order. -/
theorem foldl_setVal_eq_append (outDir : String) :
    ∀ (ws : List (String × String)) (fs : FS),
      (∀ w ∈ ws, outPath outDir w.1 ∉ fs.map Prod.fst) →
      (ws.map (fun w => outPath outDir w.1)).Nodup →
      ws.foldl (fun a w => setVal (outPath outDir w.1) w.2 a) fs
        = fs ++ ws.map (fun w => (outPath outDir w.1, w.2)) := by
  intro ws
  induction ws with
  | nil => intro fs _ _; simp
  | cons w ws ih =>
    intro fs hfresh hnd
    simp only [List.map_cons, List.nodup_cons] at hnd
    obtain ⟨hw1, hnd⟩ := hnd
    have hset : setVal (outPath outDir w.1) w.2 fs = fs ++ [(outPath outDir w.1, w.2)] :=
      setVal_append_of_not_mem _ _ fs (hfresh w (List.mem_cons_self w ws))
    have hfresh1 : ∀ w1 ∈ ws,
        outPath outDir w1.1 ∉ (fs ++ [(outPath outDir w.1, w.2)]).map Prod.fst := by
      intro w1 hmem
      simp only [List.map_append, List.mem_append, List.map_cons, List.map_nil,
        List.mem_cons, List.not_mem_nil, not_or]
      refine ⟨hfresh w1 (List.mem_cons_of_mem w hmem), ?_, fun hc => hc⟩
      intro hc
      exact hw1 (List.mem_map.mpr ⟨w1, hmem, hc⟩)
    calc (w :: ws).foldl (fun a w2 => setVal (outPath outDir w2.1) w2.2 a) fs
        = ws.foldl (fun a w2 => setVal (outPath outDir w2.1) w2.2 a)
            (fs ++ [(outPath outDir w.1, w.2)]) := by rw [List.foldl_cons, hset]
      _ = (fs ++ [(outPath outDir w.1, w.2)])
            ++ ws.map (fun w2 => (outPath outDir w2.1, w2.2)) := ih _ hfresh1 hnd
      _ = fs ++ (w :: ws).map (fun w2 => (outPath outDir w2.1, w2.2)) := by simp

theorem templates_nodup : (templates.map Prod.fst).Nodup := by decide

/-- C2: for every context, a successful run of `generate_yaml_files` renders
the bindings in the fixed deterministic order service, ingress, deployment,
horizontal-pod-autoscaler and produces exactly one output file per binding,
named `service.yaml`, `ingress.yaml`, `deploy.yaml`, `hpa.yaml` under the
output directory; each written file holds the serializer's dump of a parsed
value, so (given that dumps re-parse) each is valid structured data. -/
theorem generate_yaml_files_success_outputs (c : Collab) (ctx : PyVal)
    (outDir : String)
    (hrt : ∀ v, ∃ v1, c.safeLoad (c.dump v) = Except.ok v1)
    (hok : (KubernetesManifestGenerator.generate_yaml_files c ctx outDir []).err
      = none) :
    (KubernetesManifestGenerator.generate_yaml_files c ctx outDir []).rendered
      = ["service.yaml.j2", "ingress.yaml.j2", "deploy.yaml.j2", "hpa.yaml.j2"] ∧
    (KubernetesManifestGenerator.generate_yaml_files c ctx outDir []).fs.map Prod.fst
      = [outPath outDir "service.yaml", outPath outDir "ingress.yaml",
         outPath outDir "deploy.yaml", outPath outDir "hpa.yaml"] ∧
    ∀ p content,
      (p, content)
        ∈ (KubernetesManifestGenerator.generate_yaml_files c ctx outDir []).fs →
      ∃ v1, c.safeLoad content = Except.ok v1 := by
  obtain ⟨hrend, ws, hws1, hws2, hwsfs⟩ := genAux_ok c ctx outDir templates [] [] hok
  have hinj : Function.Injective (outPath outDir) := by
    intro a b hab
    exact string_append_cancel_left hab
  have hmapmap : ws.map (fun w => outPath outDir w.1)
      = (templates.map Prod.fst).map (outPath outDir) := by
    rw [← hws1, List.map_map]
    rfl
  have hnd : (ws.map (fun w => outPath outDir w.1)).Nodup := by
    rw [hmapmap]
    exact templates_nodup.map hinj
  have hfs : (genAux c ctx outDir templates [] []).fs
      = ws.map (fun w => (outPath outDir w.1, w.2)) := by
    rw [hwsfs, foldl_setVal_eq_append outDir ws [] (by simp) hnd]
    simp
  unfold KubernetesManifestGenerator.generate_yaml_files
  refine ⟨by simpa [templates] using hrend, ?_, ?_⟩
  · rw [hfs, List.map_map]
    have hcomp : (Prod.fst ∘ fun w : String × String => (outPath outDir w.1, w.2))
        = fun w : String × String => outPath outDir w.1 := rfl
    rw [hcomp, hmapmap]
    simp [templates]
  · intro p content hmem
    rw [hfs] at hmem
    obtain ⟨w, hwmem, hweq⟩ := List.mem_map.mp hmem
    obtain ⟨v, hv⟩ := hws2 w hwmem
    obtain ⟨v1, hv1⟩ := hrt v
    have hcontent : content = w.2 := by
      have := congrArg Prod.snd hweq
      exact this.symm
    refine ⟨v1, ?_⟩
    rw [hcontent, hv]
    exact hv1

/-- A renderer whose engine always succeeds, for the success witness. -/
def rendererW2 : TemplateRenderer := ⟨"templates", fun _ _ => .ok "text"⟩

/-- Collaborators on which every binding succeeds. -/
def collabW2 : Collab :=
  ⟨rendererW2, fun _ => .ok (.str "x"), fun _ => "dumped", fun _ => false⟩

/-- Witness for C2: a concrete run in which all four bindings succeed. -/
theorem generate_yaml_files_success_outputs_witness :
    ((∀ v, ∃ v1, collabW2.safeLoad (collabW2.dump v) = Except.ok v1) ∧
      (KubernetesManifestGenerator.generate_yaml_files collabW2 (.dict []) "output"
        []).err = none) ∧
    ((KubernetesManifestGenerator.generate_yaml_files collabW2 (.dict []) "output"
        []).rendered
      = ["service.yaml.j2", "ingress.yaml.j2", "deploy.yaml.j2", "hpa.yaml.j2"] ∧
    (KubernetesManifestGenerator.generate_yaml_files collabW2 (.dict []) "output"
        []).fs.map Prod.fst
      = [outPath "output" "service.yaml", outPath "output" "ingress.yaml",
         outPath "output" "deploy.yaml", outPath "output" "hpa.yaml"] ∧
    ∀ p content,
      (p, content)
        ∈ (KubernetesManifestGenerator.generate_yaml_files collabW2 (.dict [])
          "output" []).fs →
      ∃ v1, collabW2.safeLoad content = Except.ok v1) :=
  ⟨⟨fun _ => ⟨.str "x", rfl⟩, rfl⟩,
    generate_yaml_files_success_outputs collabW2 (.dict []) "output"
      (fun _ => ⟨.str "x", rfl⟩) rfl⟩

/-- C3: when `generate_yaml_files` fails, it fails at some binding `n` (the
`n`-th in iteration order, `1 ≤ n ≤ 4`): exactly the first `n` templates were
rendered — so no later binding is ever attempted (no render, parse or write
for it) — and every binding strictly before the failing one still has its
output file written on disk with the canonically serialized content. -/
theorem generate_yaml_files_fail_fast (c : Collab) (ctx : PyVal) (outDir : String)
    (fs : FS) (e : Err)
    (h : (KubernetesManifestGenerator.generate_yaml_files c ctx outDir fs).err
      = some e) :
    ∃ n, 1 ≤ n ∧ n ≤ 4 ∧
      (KubernetesManifestGenerator.generate_yaml_files c ctx outDir fs).rendered
        = (templates.take n).map Prod.snd ∧
      ∀ fn ∈ (templates.take (n - 1)).map Prod.fst,
        ∃ v, findVal (outPath outDir fn)
          (KubernetesManifestGenerator.generate_yaml_files c ctx outDir fs).fs
          = some (c.dump v) := by
  obtain ⟨n, h1, h2, h3, h4⟩ :=
    genAux_err c ctx outDir templates fs [] e templates_nodup h
  refine ⟨n, h1, h2, ?_, h4⟩
  simpa using h3

/-- A renderer that renders the service template but fails on the ingress
template, for the fail-fast witness. -/
def rendererW3 : TemplateRenderer :=
  ⟨"templates", fun t _ =>
    if t = "service.yaml.j2" then .ok "text" else .error .renderError⟩

/-- Collaborators under which the run fails at the second binding. -/
def collabW3 : Collab :=
  ⟨rendererW3, fun _ => .ok (.str "x"), fun _ => "dumped", fun _ => false⟩

/-- Witness for C3: a concrete run that fails at the second binding
(ingress), with the first binding's file on disk. -/
theorem generate_yaml_files_fail_fast_witness :
    (KubernetesManifestGenerator.generate_yaml_files collabW3 (.dict []) "output"
      []).err = some .renderError ∧
    (∃ n, 1 ≤ n ∧ n ≤ 4 ∧
      (KubernetesManifestGenerator.generate_yaml_files collabW3 (.dict []) "output"
        []).rendered = (templates.take n).map Prod.snd ∧
      ∀ fn ∈ (templates.take (n - 1)).map Prod.fst,
        ∃ v, findVal (outPath "output" fn)
          (KubernetesManifestGenerator.generate_yaml_files collabW3 (.dict [])
            "output" []).fs
          = some (collabW3.dump v)) :=
  ⟨rfl, generate_yaml_files_fail_fast collabW3 (.dict []) "output" [] .renderError rfl⟩

/-- C5: for a binding that completes successfully, the written file's content
is the canonical re-serialization (the serializer's dump) of the parse of the
rendered text — not the rendered text itself — stored at the requested path,
overwriting any existing file of that name; no other path is affected. -/
theorem write_yaml_canonical_content (c : Collab) (fs : FS)
    (filePath data : String) (fs1 : FS)
    (h : KubernetesManifestGenerator.write_yaml c fs filePath data = (fs1, none)) :
    ∃ v, c.safeLoad data = .ok v ∧
      findVal filePath fs1 = some (c.dump v) ∧
      ∀ q, q ≠ filePath → findVal q fs1 = findVal q fs := by
  rcases write_yaml_cases c fs filePath data with
    ⟨ho, hw⟩ | ⟨ho, e, hs, hw⟩ | ⟨ho, v, hs, hw⟩
  · rw [h] at hw
    simp at hw
  · rw [h] at hw
    simp at hw
  · rw [h] at hw
    have hfs1 : fs1 = setVal filePath (c.dump v) fs := congrArg Prod.fst hw
    subst hfs1
    refine ⟨v, hs, ?_, ?_⟩
    · rw [findVal_setVal, if_pos rfl]
    · intro q hq
      rw [findVal_setVal, if_neg (fun hc => hq hc.symm)]

/-- Witness for C5: a successful write over an existing file of the same
name. -/
theorem write_yaml_canonical_content_witness :
    (KubernetesManifestGenerator.write_yaml collabW2 [("p", "old")] "p" "data"
      = ([("p", "dumped")], none)) ∧
    (∃ v, collabW2.safeLoad "data" = .ok v ∧
      findVal "p" [("p", "dumped")] = some (collabW2.dump v) ∧
      ∀ q, q ≠ "p" → findVal q [("p", "dumped")] = findVal q [("p", "old")]) :=
  ⟨rfl, write_yaml_canonical_content collabW2 [("p", "old")] "p" "data"
    [("p", "dumped")] rfl⟩

/-- An external command invocation that returns exit status 1. -/
def sysExit1 : String → Except Err Int := fun _ => .ok 1

/-- C4 counterexample: the external cluster-apply command exits with the
non-zero status 1, yet `apply_kubernetes_manifests` succeeds.  The source
discards the value returned by `os.system` (line 92), so success is not
determined by the command's exit status, contrary to the claim. -/
theorem apply_nonzero_exit_counterexample :
    sysExit1 ("kubectl apply -f " ++ "output" ++ "/") = .ok 1 ∧ (1 : Int) ≠ 0 ∧
    KubernetesManifestGenerator.apply_kubernetes_manifests sysExit1 "output"
      = .ok () :=
  ⟨rfl, by decide, rfl⟩

/-- C4 (amended): when the apply operation is enabled,
`apply_kubernetes_manifests` succeeds whenever the external command was
launched and returned an exit status at all — whatever that status is, zero
or non-zero; only a failure to launch the command (an exception from the
invocation itself) makes the operation fail. -/
theorem apply_ignores_exit_status (system : String → Except Err Int)
    (outDir : String) (n : Int)
    (h : system ("kubectl apply -f " ++ outDir ++ "/") = .ok n) :
    KubernetesManifestGenerator.apply_kubernetes_manifests system outDir
      = .ok () := by
  unfold KubernetesManifestGenerator.apply_kubernetes_manifests
  rw [h]

/-- Witness for the amended C4 at exit status 1. -/
theorem apply_ignores_exit_status_witness :
    sysExit1 ("kubectl apply -f " ++ "out" ++ "/") = .ok 1 ∧
    KubernetesManifestGenerator.apply_kubernetes_manifests sysExit1 "out"
      = .ok () :=
  ⟨rfl, apply_ignores_exit_status sysExit1 "out" 1 rfl⟩

/-- C6: when the configuration file does not exist, `App.run` fails with the
file-not-found error before any template is rendered: no template is in the
rendered trace, the filesystem is unchanged (no output file written — the
output directory itself is created by the generator's constructor, line 59,
before `run` starts), and no external command is issued. -/
theorem run_missing_config_no_render (a : App) (c : Collab)
    (environ : List (String × String)) (fs : FS)
    (h : findVal a.env_file fs = none) :
    App.run a c environ fs = ⟨fs, [], [], some .fileNotFound⟩ := by
  simp [App.run, EnvReader.read, h]

/-- Witness for C6: a run against an empty filesystem. -/
theorem run_missing_config_no_render_witness :
    findVal (App.env_file ⟨"values.yaml", "output"⟩) ([] : FS) = none ∧
    App.run ⟨"values.yaml", "output"⟩ collabW2 [("PATH", "/bin")] []
      = ⟨[], [], [], some .fileNotFound⟩ :=
  ⟨rfl, run_missing_config_no_render ⟨"values.yaml", "output"⟩ collabW2
    [("PATH", "/bin")] [] rfl⟩

/-- C7: the current run path never invokes the external cluster-apply
command: the call to `apply_kubernetes_manifests` is commented out in the
source (line 117), so on every input `App.run` issues no external command —
it only reads the configuration, renders, and writes files. -/
theorem run_never_applies (a : App) (c : Collab)
    (environ : List (String × String)) (fs : FS) :
    (App.run a c environ fs).applied = [] := by
  unfold App.run
  split
  · rfl
  · split
    rfl

/-- C8: `App.run` re-raises every component error unchanged to its caller:
the run's error is exactly the reader's error when reading fails, and exactly
the generator's error (itself the renderer's or writer's error re-raised
unchanged, lines 70-78) otherwise; no error is swallowed, replaced, or
converted into success, and no step is retried. -/
theorem run_reraises_component_errors (a : App) (c : Collab)
    (environ : List (String × String)) (fs : FS) :
    (App.run a c environ fs).err =
      match EnvReader.read ⟨a.env_file⟩ fs c.safeLoad environ with
      | .error e => some e
      | .ok ctx =>
        (KubernetesManifestGenerator.generate_yaml_files c ctx a.output_dir fs).err
      := by
  unfold App.run
  split
  · rfl
  · split
    rename_i fs1 tr err heq
    rw [heq]

/-- C9: rendering is deterministic in its inputs: `render` does not mutate
the renderer (the Jinja2 environment is built once in the constructor and
only read, lines 40-46), so rendering the same template binding with the same
context twice in a row yields identical rendered text. -/
theorem render_deterministic (tr : TemplateRenderer) (templateName : String)
    (ctx : PyVal) :
    (tr.render templateName ctx).2 = tr ∧
    ((tr.render templateName ctx).2.render templateName ctx).1
      = (tr.render templateName ctx).1 :=
  ⟨rfl, rfl⟩

/-- A YAML parser collaborator that parses the text `[1]` to a one-element
list (as `yaml.safe_load` does). -/
def safeLoadW10 : String → Except Err PyVal := fun s =>
  if s = "[1]" then .ok (.list [.int 1]) else .error .yamlError

/-- C10 counterexample: a values file whose parse is a list — not a key-value
mapping — on which `EnvReader.read` nevertheless returns successfully: the
Python membership test `key in context` is well-defined on lists, and no
environment variable name occurs in the list, so the override loop finishes
without raising and the non-mapping is returned. -/
theorem read_nonmapping_counterexample :
    EnvReader.read ⟨"values.yaml"⟩ [("values.yaml", "[1]")] safeLoadW10
      [("image", "app:v2")] = .ok (.list [.int 1]) ∧
    PyVal.isDict (.list [.int 1]) = false :=
  ⟨rfl, rfl⟩

/-- C10 (amended): if the parse of the values file yields `null` (as for an
empty document) and at least one environment variable is set, `EnvReader.read`
fails with a `TypeError` from the membership test rather than returning; but
a successful return does not guarantee a mapping: for a non-mapping parse on
which membership is well-defined and never true (e.g. a list containing no
environment variable's name), `read` returns the non-mapping unchanged. -/
theorem read_null_env_fails (r : EnvReader) (fs : FS)
    (safeLoad : String → Except Err PyVal) (environ : List (String × String))
    (s k v : String) (rest : List (String × String))
    (hfile : findVal r.env_file fs = some s)
    (hparse : safeLoad s = .ok .null)
    (henv : environ = (k, v) :: rest) :
    EnvReader.read r fs safeLoad environ = .error .typeError := by
  subst henv
  simp [EnvReader.read, hfile, hparse, envOverride, pyContains]

/-- A YAML parser that parses every text to `null`, as `yaml.safe_load` does
for an empty document. -/
def safeLoadNull : String → Except Err PyVal := fun _ => .ok .null

/-- Witness for the amended C10: an empty values document with a non-empty
environment makes `read` raise. -/
theorem read_null_env_fails_witness :
    (findVal (EnvReader.env_file ⟨"values.yaml"⟩) [("values.yaml", "")]
      = some "" ∧
     safeLoadNull "" = .ok .null ∧
     ([("PATH", "/bin")] : List (String × String)) = ("PATH", "/bin") :: []) ∧
    EnvReader.read ⟨"values.yaml"⟩ [("values.yaml", "")] safeLoadNull
      [("PATH", "/bin")] = .error .typeError :=
  ⟨⟨rfl, rfl, rfl⟩,
    read_null_env_fails ⟨"values.yaml"⟩ [("values.yaml", "")] safeLoadNull
      [("PATH", "/bin")] "" "PATH" "/bin" [] rfl rfl rfl⟩
